import Mathlib

/-
Verification development for the rust FFI core of a Zcash light client
(`src/rust/src/lib.rs`).  The file shallowly embeds the data model and the
operations exercised by the specification claims:

* chain-continuity validation (`zcashlc_validate_combined_chain`),
* rollback (`zcashlc_rewind_to_height`),
* balance queries (`zcashlc_get_verified_balance`),
* key/address derivation round trips,
* the shield-funds pipeline (`shield_funds` / `zcashlc_shield_funds`) with its
  atomic database commit,
* the C-boundary release helpers (`zcashlc_string_free`,
  `zcashlc_vec_string_free`).

External crates (zcash_primitives, zcash_client_backend, zcash_client_sqlite,
secp256k1, zip32 derivation) are not part of the repository; the specification
treats them as collaborators fixed at their interfaces.  They are modelled here
by executable Lean definitions that follow the documented interface contract;
each such definition carries a doc comment saying what it models.  Pure
encoding layers (bech32 / base58 / hex strings) are out of scope for the
specification and are modelled by a tagged-payload container `Enc` that keeps
the fallibility structure (wrong human-readable prefix, garbage input) without
the string bit-twiddling.  Machine integers at the FFI boundary (i32 heights,
i64 amounts and row ids) are modelled as `Int` with the two's-complement
wrapping of the `as u32` / `as i32` casts made explicit.
-/

/-! ## Machine-integer casts at the FFI boundary -/

/-- Two's-complement reinterpretation of an `i32` value as a `u32`, as performed
by Rust's `height as u32`. -/
def u32ofI32 (n : Int) : Nat := (n % 4294967296).toNat

/-- Two's-complement reinterpretation of a `u32` value as an `i32`, as performed
by Rust's `branch_id as i32` and `upper_bound_u32 as i32`. -/
def i32ofU32 (n : Nat) : Int :=
  if n % 4294967296 < 2147483648 then ((n % 4294967296 : Nat) : Int)
  else ((n % 4294967296 : Nat) : Int) - 4294967296

/-! ## Consensus parameters (`zcash_primitives::consensus`) -/

/-- Model of the external `consensus::Parameters` data: coin type, network
upgrade activation heights and the encoding prefixes used by the FFI layer. -/
structure Network where
  coinType : Nat
  overwinterActivation : Nat
  saplingActivation : Nat
  blossomActivation : Nat
  heartwoodActivation : Nat
  canopyActivation : Nat
  hrpSaplingExtendedSpendingKey : String
  hrpSaplingExtendedFullViewingKey : String
  hrpSaplingPaymentAddress : String
  b58PubkeyAddressPrefix : Nat
  deriving DecidableEq, Repr

/-- The `TEST_NETWORK` constant of `zcash_primitives` (the crate is built
without the `mainnet` feature, so `NETWORK = TEST_NETWORK` in `lib.rs`). -/
def TEST_NETWORK : Network :=
  { coinType := 1
    overwinterActivation := 207500
    saplingActivation := 280000
    blossomActivation := 584000
    heartwoodActivation := 903800
    canopyActivation := 1028500
    hrpSaplingExtendedSpendingKey := "secret-extended-key-test"
    hrpSaplingExtendedFullViewingKey := "zxviewtestsapling"
    hrpSaplingPaymentAddress := "ztestsapling"
    b58PubkeyAddressPrefix := 7461 }

/-- The process-wide network singleton of `lib.rs` (`pub const NETWORK`). -/
def NETWORK : Network := TEST_NETWORK

/-- Consensus branch identifiers (`zcash_primitives::consensus::BranchId`),
`u32` constants per network upgrade. -/
def sproutBranchId : Nat := 0
def overwinterBranchId : Nat := 0x5ba81b19
def saplingBranchId : Nat := 0x76b809bb
def blossomBranchId : Nat := 0x2bb40e60
def heartwoodBranchId : Nat := 0xf5b9230b
def canopyBranchId : Nat := 0xe9ff75a6

/-- Model of `BranchId::for_height`: the branch id of the highest network
upgrade activated at the given (unsigned) height. -/
def branchIdForHeight (net : Network) (h : Nat) : Nat :=
  if net.canopyActivation ≤ h then canopyBranchId
  else if net.heartwoodActivation ≤ h then heartwoodBranchId
  else if net.blossomActivation ≤ h then blossomBranchId
  else if net.saplingActivation ≤ h then saplingBranchId
  else if net.overwinterActivation ≤ h then overwinterBranchId
  else sproutBranchId

/-- `zcashlc_branch_id_for_height` (lib.rs:838): converts the incoming `i32`
height with `height as u32` (two's-complement wrap, no negativity check),
derives the branch id and returns it as `branch_id as i32`.  The closure never
fails, so the `-1` sentinel of `unwrap_exc_or` is never produced. -/
def zcashlc_branch_id_for_height (height : Int) : Int :=
  i32ofU32 (branchIdForHeight NETWORK (u32ofI32 height))

/-! ## Encoded strings at the boundary

Key and address strings (bech32 / base58check / hex) are consumed by the FFI
layer through pure external encoders and decoders.  They are modelled by a
tagged payload: the tag plays the role of the human-readable prefix (or the
syntactic class of the string), the payload is the decoded content.  A decoder
checks the tag, which reproduces the observable failure modes of the real
decoders (wrong network prefix or malformed input gives no result). -/

/-- An encoded string crossing the C boundary, modelled as tag plus payload. -/
structure Enc where
  hrp : String
  payload : Nat
  deriving DecidableEq, Repr

/-- Model of `secp256k1::key::SecretKey::from_str`: accepts exactly the
well-formed transparent secret-key encodings. -/
def secretKeyFromStr (s : Enc) : Option Nat :=
  if s.hrp = "secp256k1-sk" then some s.payload else none

/-- Model of the public-key-hash pipeline of
`derive_transparent_address_from_secret_key` (lib.rs:981):
RIPEMD160(SHA256(serialized public key of the secret key)), an injective pure
function of the secret key. -/
def transparentPubkeyHash (sk : Nat) : Nat := 2 * sk + 1

/-- `derive_transparent_address_from_secret_key` (lib.rs:981): derives the
public key, hashes it and base58check-encodes the result with the network's
pubkey address prefix. -/
def derive_transparent_address_from_secret_key (sk : Nat) : Enc :=
  { hrp := "t", payload := transparentPubkeyHash sk }

/-- Recipient addresses (`zcash_client_backend::address::RecipientAddress`). -/
inductive RecipientAddress where
  | shielded (a : Nat)
  | transparent (a : Nat)
  deriving DecidableEq, Repr

/-- Model of `RecipientAddress::decode`: transparent addresses carry the
base58 pubkey prefix (tag `"t"`), shielded ones the sapling payment-address
prefix; anything else fails to decode. -/
def RecipientAddress.decode (net : Network) (s : Enc) : Option RecipientAddress :=
  if s.hrp = net.hrpSaplingPaymentAddress then some (.shielded s.payload)
  else if s.hrp = "t" then some (.transparent s.payload)
  else none

/-- Model of `zcash_client_backend::keys::spending_key`: ZIP-32 derivation of
the account spending key from seed, coin type and account index. -/
def spending_key (seed : List Nat) (coinType account : Nat) : Nat :=
  (seed.foldl (fun a b => a * 256 + b + 1) 1) * 4096 + coinType * 64 + account

/-- Model of `ExtendedFullViewingKey::from(&extsk)`: the full viewing key
determined by a spending key. -/
def extendedFullViewingKeyOfSk (sk : Nat) : Nat := 2 * sk

/-- Model of `exfvk.fvk.ovk`: the outgoing viewing key carried by a full
viewing key. -/
def ovkOf (fvk : Nat) : Nat := fvk + 7

/-- Model of `ExtendedFullViewingKey::default_address().unwrap().1`: the
default diversified payment address of a full viewing key. -/
def defaultAddressFvk (fvk : Nat) : Nat := 3 * fvk + 1

/-- Model of `ExtendedSpendingKey::default_address().unwrap().1`.  In the zip32
crate this is defined by first taking the extended full viewing key of the
spending key and asking it for its default address; the model keeps that
definition. -/
def defaultAddressSk (sk : Nat) : Nat := defaultAddressFvk (extendedFullViewingKeyOfSk sk)

/-- Model of `encode_payment_address`: bech32 encoding under the given
human-readable prefix. -/
def encode_payment_address (hrp : String) (addr : Nat) : Enc :=
  { hrp := hrp, payload := addr }

/-- Model of `encode_extended_full_viewing_key`. -/
def encode_extended_full_viewing_key (hrp : String) (fvk : Nat) : Enc :=
  { hrp := hrp, payload := fvk }

/-- Model of `decode_extended_full_viewing_key`: succeeds exactly on strings
encoded under the expected prefix. -/
def decode_extended_full_viewing_key (hrp : String) (s : Enc) : Option Nat :=
  if s.hrp = hrp then some s.payload else none

/-- Model of `decode_extended_spending_key`: succeeds exactly on strings
encoded under the expected prefix. -/
def decode_extended_spending_key (hrp : String) (s : Enc) : Option Nat :=
  if s.hrp = hrp then some s.payload else none

/-- `derive_shielded_address_from_seed` (lib.rs:339): derives the spending key
for (seed, account index) with the global `NETWORK` coin type, takes its
default address and encodes it under the parameter network's payment-address
prefix. -/
def derive_shielded_address_from_seed (params : Network) (seed : List Nat)
    (account_index : Nat) : Enc :=
  encode_payment_address params.hrpSaplingPaymentAddress
    (defaultAddressSk (spending_key seed NETWORK.coinType account_index))

/-- `zcashlc_derive_shielded_address_from_seed` (lib.rs:321): rejects a
negative account index, otherwise defers to
`derive_shielded_address_from_seed`; `none` is the null-pointer failure
return. -/
def zcashlc_derive_shielded_address_from_seed (seed : List Nat)
    (account_index : Int) : Option Enc :=
  if 0 ≤ account_index then
    some (derive_shielded_address_from_seed NETWORK seed account_index.toNat)
  else none

/-- `zcashlc_derive_shielded_address_from_viewing_key` (lib.rs:355): decodes
the extended full viewing key string, takes the key's default address and
encodes it as a payment address; `none` is the null-pointer failure return. -/
def zcashlc_derive_shielded_address_from_viewing_key (extfvk : Enc) : Option Enc :=
  match decode_extended_full_viewing_key NETWORK.hrpSaplingExtendedFullViewingKey extfvk with
  | some fvk =>
      some (encode_payment_address NETWORK.hrpSaplingPaymentAddress (defaultAddressFvk fvk))
  | none => none

/-! ## Store state

The two persistent stores of the design: the Block Cache (`BlockDB`) and the
Wallet Ledger (`WalletDB`).  Paths and connections are elided; a `corrupt`
flag stands for the environmental failures (unopenable or malformed store)
that make every operation on the handle fail. -/

/-- A confirmed transparent UTXO row as returned by the cache store
(`zcash_client_sqlite::chain::UnspentTransactionOutput`). -/
structure Utxo where
  txid : Nat
  index : Nat
  script : Nat
  value : Int
  height : Nat
  address : Enc
  deriving DecidableEq, Repr

/-- A compact block row in the cache store: height, own hash and declared
previous-block hash. -/
structure CompactBlock where
  height : Nat
  hash : Nat
  prevHash : Nat
  deriving DecidableEq, Repr

/-- The Block Cache store.  `blocks` is kept in ascending height order (the
store's block query orders by height). -/
structure CacheState where
  corrupt : Bool
  blocks : List CompactBlock
  utxos : List Utxo
  deriving DecidableEq, Repr

/-- A shielded note row of the wallet ledger (`received_notes`): owning
account, nullifier, value, the height it was first observed at, and the row
reference of the spending transaction once marked spent. -/
structure Note where
  account : Nat
  nf : Nat
  value : Int
  height : Nat
  spent : Option Int
  deriving DecidableEq, Repr

/-- A sapling output of a built transaction. -/
structure SaplingOutput where
  ovk : Option Nat
  toAddr : Nat
  value : Int
  memo : Option String
  deriving DecidableEq, Repr

/-- A built transaction: its transparent inputs (outpoint txid, index, value),
the nullifiers of its shielded spends, its shielded outputs and the consensus
branch id it was signed under. -/
structure Tx where
  transparentInputs : List (Nat × Nat × Int)
  shieldedSpends : List Nat
  shieldedOutputs : List SaplingOutput
  branch : Nat
  deriving DecidableEq, Repr

/-- A persisted transaction row (`transactions` table): raw transaction,
creation timestamp, and the mining height once the scanner observes it. -/
structure TxRecord where
  tx : Tx
  created : Option Nat
  minedHeight : Option Nat
  deriving DecidableEq, Repr

/-- A sent-note row (`sent_notes` table). -/
structure SentNote where
  txRef : Int
  outputIndex : Nat
  account : Nat
  toAddr : RecipientAddress
  value : Int
  memo : Option String
  deriving DecidableEq, Repr

/-- The Wallet Ledger store.  `blocks` are the scanned blocks (height, hash);
row references for `txs` are list positions. -/
structure LedgerState where
  corrupt : Bool
  blocks : List (Nat × Nat)
  txs : List TxRecord
  notes : List Note
  sentNotes : List SentNote
  deriving DecidableEq, Repr

/-- Model of `WalletRead::get_max_height_hash`: the (height, hash) of the
highest scanned block, if any. -/
def get_max_height_hash (led : LedgerState) : Option (Nat × Nat) :=
  led.blocks.foldl
    (fun acc b =>
      match acc with
      | none => some b
      | some m => if m.1 < b.1 then some b else some m)
    none

/-- Model of `WalletRead::block_height_extrema`: minimum and maximum scanned
heights. -/
def block_height_extrema (led : LedgerState) : Option (Nat × Nat) :=
  led.blocks.foldl
    (fun acc b =>
      match acc with
      | none => some (b.1, b.1)
      | some (mn, mx) => some (min mn b.1, max mx b.1))
    none

/-- Model of `WalletRead::get_target_and_anchor_heights`: target height is one
above the maximum scanned height; the anchor is `ANCHOR_OFFSET = 10` blocks
below the target, clamped to the minimum scanned height (the subtraction
saturates).  Returns `(target, anchor)`. -/
def get_target_and_anchor_heights (led : LedgerState) : Option (Nat × Nat) :=
  match block_height_extrema led with
  | none => none
  | some (mn, mx) => some (mx + 1, max (mx + 1 - 10) mn)

/-- Model of `get_balance_at`: sum of the account's unspent notes received at
or below the anchor height. -/
def get_balance_at (led : LedgerState) (account : Nat) (anchor : Nat) : Int :=
  ((led.notes.filter
      (fun n => n.account = account && n.spent.isNone && n.height ≤ anchor)).map
    (fun n => n.value)).sum

/-- `zcashlc_get_verified_balance` (lib.rs:543): rejects a negative account
index, requires an obtainable anchor height (otherwise the error
"Anchor height not available; scan required" is raised) and sums the verified
balance at the anchor; every failure surfaces as the `-1` sentinel of
`unwrap_exc_or`. -/
def zcashlc_get_verified_balance (led : LedgerState) (account : Int) : Int :=
  if led.corrupt then -1
  else if account < 0 then -1
  else
    match get_target_and_anchor_heights led with
    | none => -1
    | some ta => get_balance_at led account.toNat ta.2

/-- Model of the cache query `get_confirmed_utxos_for_address`: all UTXO rows
for the given address confirmed at or below the anchor height. -/
def get_confirmed_utxos_for_address (net : Network) (cache : CacheState)
    (anchor : Nat) (addr : Enc) : List Utxo :=
  cache.utxos.filter (fun u => u.address = addr && u.height ≤ anchor)

/-! ## Chain-continuity validation -/

/-- One step of the continuity check of the external `validate_chain`, as the
spec describes it: a cached block extends state `(prevHeight, prevHash)` iff
its height is the successor and its declared previous-hash equals the stored
hash.  On failure it reports the offending height: the expected height for a
height discontinuity, the block's own height for a previous-hash mismatch. -/
def linkFails (p : Nat × Nat) (b : CompactBlock) : Option Nat :=
  if b.height ≠ p.1 + 1 then some (p.1 + 1)
  else if b.prevHash ≠ p.2 then some b.height
  else none

/-- The walk of `validate_chain` over the cached blocks above the ledger's
last scanned position: threads the (height, hash) state through the blocks and
stops at the first broken link.  With no prior scanned block the first cached
block is accepted as the starting state.  Returns the reported invalid height,
or `none` when the combined chain is continuous. -/
def validateWalk : Option (Nat × Nat) → List CompactBlock → Option Nat
  | _, [] => none
  | none, b :: bs => validateWalk (some (b.height, b.hash)) bs
  | some p, b :: bs =>
    match linkFails p b with
    | some h => some h
    | none => validateWalk (some (b.height, b.hash)) bs

/-- The cached blocks `validate_chain` looks at: only those strictly above the
ledger's last scanned height. -/
def relevantBlocks (cache : CacheState) (vfrom : Option (Nat × Nat)) : List CompactBlock :=
  match vfrom with
  | none => cache.blocks
  | some p => cache.blocks.filter (fun b => p.1 < b.height)

/-- `zcashlc_validate_combined_chain` (lib.rs:641): opens both stores, reads
the ledger's maximum (height, hash), validates the cached blocks above it, and
maps the outcome to the shared `i32` channel: `-1` when continuous,
`upper_bound as i32` on an `InvalidChain(upper_bound)` failure, and the
`Nullable` sentinel `0` when an I/O or store failure unrelated to continuity
occurs. -/
def zcashlc_validate_combined_chain (cache : CacheState) (led : LedgerState) : Int :=
  if cache.corrupt || led.corrupt then 0
  else
    let vfrom := get_max_height_hash led
    match validateWalk vfrom (relevantBlocks cache vfrom) with
    | none => -1
    | some h => i32ofU32 h

/-- The call form of `zcashlc_validate_combined_chain`, returning the stores as
they stand when the call exits.  Every store operation the source performs
(`get_max_height_hash`, the block walk of `validate_chain`) is a read, so the
stores come back exactly as they went in. -/
def zcashlc_validate_combined_chain_call (cache : CacheState) (led : LedgerState) :
    Int × CacheState × LedgerState :=
  (zcashlc_validate_combined_chain cache led, cache, led)

/-! ## Rollback -/

/-- The ledger's watermark: the height of the last scanned block. -/
def lastScannedHeight (led : LedgerState) : Option Nat :=
  (block_height_extrema led).map (fun e => e.2)

/-- Whether the transaction at row `r` is mined strictly above height `h`. -/
def spentTxMinedAbove (led : LedgerState) (r : Int) (h : Nat) : Bool :=
  match led.txs.get? r.toNat with
  | some rec =>
    match rec.minedHeight with
    | some mh => h < mh
    | none => false
  | none => false

/-- Model of the external `rewind_to_height` unit of work, per the spec's
Rollback Manager contract: when the watermark is at or below the target the
ledger is untouched; otherwise scanned blocks above the target are discarded,
notes first observed above the target are discarded, and notes spent by
transactions mined above the target are unmarked. -/
def rewind_to_height (led : LedgerState) (h : Nat) : LedgerState :=
  match lastScannedHeight led with
  | none => led
  | some mx =>
    if mx ≤ h then led
    else
      { led with
        blocks := led.blocks.filter (fun b => b.1 ≤ h)
        notes := (led.notes.filter (fun n => n.height ≤ h)).map
          (fun n =>
            match n.spent with
            | some r => if spentTxMinedAbove led r h then { n with spent := none } else n
            | none => n) }

/-- `zcashlc_rewind_to_height` (lib.rs:678): opens the ledger, converts the
`i32` height with `BlockHeight::try_from` (which rejects negatives), and runs
the rewind inside one ledger transaction, returning `1` on success and the
`Nullable` sentinel `0` on failure. -/
def zcashlc_rewind_to_height (led : LedgerState) (height : Int) : LedgerState × Int :=
  if led.corrupt then (led, 0)
  else if height < 0 then (led, 0)
  else (rewind_to_height led height.toNat, 1)

/-! ## Checkpoint initialisation -/

/-- Database errors surfaced by the ledger store. -/
inductive DbError where
  | doubleSpend
  | tableNotEmpty
  deriving DecidableEq, Repr

/-- Model of the external `init_blocks_table`: inserts the checkpoint row,
failing when the blocks table is already populated. -/
def init_blocks_table (led : LedgerState) (height : Nat) (hash : Nat)
    (time : Nat) (saplingTree : Nat) : Except DbError LedgerState :=
  if led.blocks.isEmpty then .ok { led with blocks := [(height, hash)] }
  else .error .tableNotEmpty

/-- `zcashlc_init_blocks_table` (lib.rs:416): converts the incoming `i32`
height with `height as u32` (two's-complement wrap, no negativity check) and
inserts the checkpoint, returning `1` on success and the `Nullable` sentinel
`0` on failure.  Hash and tree hex strings are taken already decoded. -/
def zcashlc_init_blocks_table (led : LedgerState) (height : Int) (hash : Nat)
    (time : Nat) (saplingTree : Nat) : LedgerState × Int :=
  if led.corrupt then (led, 0)
  else
    match init_blocks_table led (u32ofI32 height) hash time saplingTree with
    | .ok led2 => (led2, 1)
    | .error _ => (led, 0)

/-! ## Amounts (`zcash_primitives::transaction::components::amount`) -/

/-- `MAX_MONEY` in zatoshis. -/
def MAX_MONEY : Int := 2100000000000000

/-- The fixed per-transaction `DEFAULT_FEE` in zatoshis. -/
def DEFAULT_FEE : Int := 10000

/-- Model of `Amount::from_i64`: accepts values in `[-MAX_MONEY, MAX_MONEY]`.
`Amount` addition and subtraction panic outside that range, which the FFI
layer's `catch_panic` converts into an error; both are routed through this
check in the model. -/
def amountFromI64 (v : Int) : Option Int :=
  if -MAX_MONEY ≤ v ∧ v ≤ MAX_MONEY then some v else none

/-! ## Atomic commit (`get_update_ops` / `transactionally` in shield_funds) -/

/-- Model of `put_tx_data`: inserts the raw transaction with its creation
timestamp and returns the new row reference (the row id of the inserted
`transactions` row). -/
def put_tx_data (led : LedgerState) (tx : Tx) (created : Option Nat) :
    LedgerState × Int :=
  ({ led with txs := led.txs ++ [{ tx := tx, created := created, minedHeight := none }] },
   (led.txs.length : Int))

/-- Model of `mark_spent`: records the spending transaction reference on the
note carrying the nullifier.  Marking an already-spent note again is a
constraint violation (a double-spend race) and fails the operation. -/
def mark_spent (led : LedgerState) (txRef : Int) (nf : Nat) : Except DbError LedgerState :=
  if led.notes.any (fun n => n.nf = nf && n.spent.isSome) then .error .doubleSpend
  else
    .ok { led with
          notes := led.notes.map
            (fun n => if n.nf = nf then { n with spent := some txRef } else n) }

/-- The `for spend in &tx.shielded_spends` loop of the commit step: marks each
consumed shielded input spent, propagating the first failure. -/
def markAllSpent (txRef : Int) : LedgerState → List Nat → Except DbError LedgerState
  | led, [] => .ok led
  | led, nf :: nfs =>
    match mark_spent led txRef nf with
    | .error e => .error e
    | .ok led2 => markAllSpent txRef led2 nfs

/-- Model of `insert_sent_note`: inserts one sent-note row linking account,
recipient, amount and memo to the transaction reference and output position. -/
def insert_sent_note (led : LedgerState) (txRef : Int) (outputIndex : Nat)
    (account : Nat) (toAddr : RecipientAddress) (value : Int) (memo : Option String) :
    LedgerState :=
  { led with
    sentNotes := led.sentNotes ++
      [{ txRef := txRef, outputIndex := outputIndex, account := account,
         toAddr := toAddr, value := value, memo := memo }] }

/-- Model of `DataConnStmtCache::transactionally`: runs the unit of work inside
one SQL transaction; on success the mutated ledger and the returned value are
committed, on any failure the transaction is rolled back and the ledger is
exactly as it was before the call. -/
def transactionally (led : LedgerState)
    (f : LedgerState → Except DbError (LedgerState × Int)) :
    LedgerState × Except DbError Int :=
  match f led with
  | .ok (led2, r) => (led2, .ok r)
  | .error e => (led, .error e)

/-- The final database-update step of `shield_funds` (lib.rs:1189): within one
ledger transaction, persist the raw transaction with a timestamp, mark every
consumed shielded input spent, insert the sent-note record and return the row
reference of the persisted transaction. -/
def commitShield (led : LedgerState) (tx : Tx) (now : Nat) (outputIndex : Nat)
    (account : Nat) (toAddr : RecipientAddress) (value : Int) (memo : Option String) :
    LedgerState × Except DbError Int :=
  transactionally led (fun up =>
    let put := put_tx_data up tx (some now)
    match markAllSpent put.2 put.1 tx.shieldedSpends with
    | .error e => .error e
    | .ok up2 => .ok (insert_sent_note up2 put.2 outputIndex account toAddr value memo, put.2))

/-! ## Transaction builder (`zcash_primitives::transaction::builder`) -/

/-- The failure conditions of `shield_funds`, one per early return of the
source function. -/
inductive SfError where
  | anchorFetch
  | noAnchor
  | invalidTsk
  | wrongNetworkAddr
  | invalidExtsk
  | invalidMemo
  | utxoQuery
  | amountCollect
  | amountOverflow
  | insufficientFunds
  | addTransparentInput
  | addSaplingOutput
  | buildFailed
  | missingOutputIndex
  | dbCommit (e : DbError)
  deriving DecidableEq, Repr

/-- Model of `Memo::from_str`: memo text is UTF-8 of at most 512 encoded
bytes. -/
def memoFromStr (s : String) : Option String :=
  if s.utf8ByteSize ≤ 512 then some s else none

/-- The builder-input phase of `shield_funds`: the `add_transparent_input`
loop and the single `add_sapling_output` call.  The external builder rejects a
transparent coin whose value is negative or whose script does not pay to the
signing key, and rejects a negative sapling output amount; the first failure
is the error returned by `shield_funds`. -/
def builderAddChecks (sk : Nat) (utxos : List Utxo) (amount : Int) : Option SfError :=
  if ¬ utxos.all (fun u => 0 ≤ u.value && u.script = transparentPubkeyHash sk) then
    some .addTransparentInput
  else if amount < 0 then some .addSaplingOutput
  else none

/-- Model of `Builder::build`: computes the change as transparent input value
minus sapling output value minus the builder's fee (`DEFAULT_FEE`); negative
change fails the build, positive change adds one change output to the address
registered by `send_change_to` (in `shield_funds`, the own shielded address
under the own `ovk`).  The sapling outputs keep their insertion positions, so
the metadata position of output 0 is 0. -/
def builderBuild (utxos : List Utxo) (ovk zAddr : Nat) (amount : Int)
    (memoV : String) (branch : Nat) : Except SfError Tx :=
  let inputValue := (utxos.map (fun u => u.value)).sum
  let change := inputValue - amount - DEFAULT_FEE
  if change < 0 then .error .buildFailed
  else
    .ok { transparentInputs := utxos.map (fun u => (u.txid, u.index, u.value))
          shieldedSpends := []
          shieldedOutputs :=
            { ovk := some ovk, toAddr := zAddr, value := amount, memo := some memoV } ::
              (if 0 < change then
                [{ ovk := some ovk, toAddr := zAddr, value := change, memo := none }]
              else [])
          branch := branch }

/-- Model of `tx_metadata.output_index(i)` for a build with `n` explicitly
added sapling outputs. -/
def metadataOutputIndex (n : Nat) (i : Nat) : Option Nat :=
  if i < n then some i else none

/-! ## shield_funds -/

deriving instance DecidableEq for Except

/-- The observable outcome of one `shield_funds` call: the ledger as the call
leaves it, the height argument passed to `get_confirmed_utxos_for_address`
(when the query happens), the height argument passed to
`BranchId::for_height` (when branch-id derivation happens), whether
`builder.build` (the proving/signing work) ran, and the result channel. -/
structure ShieldOutcome where
  ledger : LedgerState
  utxoQueryHeight : Option Nat
  branchIdHeight : Option Nat
  built : Bool
  result : Except SfError Int
  deriving DecidableEq, Repr

/-- `shield_funds` (lib.rs:1038).  Faithful to the source's order of work:
fetch `(target, anchor)` heights; parse the transparent secret key; derive and
decode its transparent address; decode the extended spending key and take its
default shielded address and outgoing viewing key; validate the memo; query
the confirmed UTXOs at `anchor_and_height.0` (bound by the source to
`latest_anchor`); sum them into an `Amount`; compute `fee + total_amount` (the
`Amount` addition that panics out of range); fail with insufficient funds
unless the sum strictly exceeds `DEFAULT_FEE`; run the builder-input phase;
derive the consensus branch id at `anchor_and_height.1` (bound by the source
to `latest_scanned_height`, also the `Builder::new` height); build and sign;
read the metadata position of output 0; and commit the database update
atomically. -/
def shield_funds (db_cache : CacheState) (db_data : LedgerState) (account : Nat)
    (tsk extskEnc : Enc) (memoStr : String) (now : Nat) : ShieldOutcome :=
  if db_data.corrupt then
    { ledger := db_data, utxoQueryHeight := none, branchIdHeight := none,
      built := false, result := .error .anchorFetch }
  else
    match get_target_and_anchor_heights db_data with
    | none =>
      { ledger := db_data, utxoQueryHeight := none, branchIdHeight := none,
        built := false, result := .error .noAnchor }
    | some (targetH, anchorH) =>
      match secretKeyFromStr tsk with
      | none =>
        { ledger := db_data, utxoQueryHeight := none, branchIdHeight := none,
          built := false, result := .error .invalidTsk }
      | some sk =>
        let tAddrStr := derive_transparent_address_from_secret_key sk
        match RecipientAddress.decode NETWORK tAddrStr with
        | none =>
          { ledger := db_data, utxoQueryHeight := none, branchIdHeight := none,
            built := false, result := .error .wrongNetworkAddr }
        | some _tAddr =>
          match decode_extended_spending_key NETWORK.hrpSaplingExtendedSpendingKey extskEnc with
          | none =>
            { ledger := db_data, utxoQueryHeight := none, branchIdHeight := none,
              built := false, result := .error .invalidExtsk }
          | some extsk =>
            let zAddress := defaultAddressSk extsk
            let ovk := ovkOf (extendedFullViewingKeyOfSk extsk)
            match memoFromStr memoStr with
            | none =>
              { ledger := db_data, utxoQueryHeight := none, branchIdHeight := none,
                built := false, result := .error .invalidMemo }
            | some memoV =>
              if db_cache.corrupt then
                { ledger := db_data, utxoQueryHeight := some targetH, branchIdHeight := none,
                  built := false, result := .error .utxoQuery }
              else
                let utxos := get_confirmed_utxos_for_address NETWORK db_cache targetH tAddrStr
                match amountFromI64 ((utxos.map (fun u => u.value)).sum) with
                | none =>
                  { ledger := db_data, utxoQueryHeight := some targetH, branchIdHeight := none,
                    built := false, result := .error .amountCollect }
                | some totalAmount =>
                  match amountFromI64 (DEFAULT_FEE + totalAmount) with
                  | none =>
                    { ledger := db_data, utxoQueryHeight := some targetH, branchIdHeight := none,
                      built := false, result := .error .amountOverflow }
                  | some _targetValue =>
                    if totalAmount ≤ DEFAULT_FEE then
                      { ledger := db_data, utxoQueryHeight := some targetH,
                        branchIdHeight := none, built := false,
                        result := .error .insufficientFunds }
                    else
                      let amountToShield := totalAmount - DEFAULT_FEE
                      match builderAddChecks sk utxos amountToShield with
                      | some e =>
                        { ledger := db_data, utxoQueryHeight := some targetH,
                          branchIdHeight := none, built := false, result := .error e }
                      | none =>
                        let branch := branchIdForHeight NETWORK anchorH
                        match builderBuild utxos ovk zAddress amountToShield memoV branch with
                        | .error e =>
                          { ledger := db_data, utxoQueryHeight := some targetH,
                            branchIdHeight := some anchorH, built := true,
                            result := .error e }
                        | .ok tx =>
                          match metadataOutputIndex 1 0 with
                          | none =>
                            { ledger := db_data, utxoQueryHeight := some targetH,
                              branchIdHeight := some anchorH, built := true,
                              result := .error .missingOutputIndex }
                          | some outputIndex =>
                            let commit := commitShield db_data tx now outputIndex account
                              (RecipientAddress.shielded zAddress) amountToShield (some memoV)
                            match commit.2 with
                            | .error e =>
                              { ledger := commit.1, utxoQueryHeight := some targetH,
                                branchIdHeight := some anchorH, built := true,
                                result := .error (.dbCommit e) }
                            | .ok txRef =>
                              { ledger := commit.1, utxoQueryHeight := some targetH,
                                branchIdHeight := some anchorH, built := true,
                                result := .ok txRef }

/-- `zcashlc_shield_funds` (lib.rs:1221): opens both stores, rejects a negative
account index, and defers to `shield_funds`; every failure surfaces as the
`-1` sentinel of `unwrap_exc_or`. -/
def zcashlc_shield_funds (db_cache : CacheState) (db_data : LedgerState)
    (account : Int) (tsk extskEnc : Enc) (memoStr : String) (now : Nat) :
    LedgerState × Int :=
  if db_data.corrupt || db_cache.corrupt then (db_data, -1)
  else if account < 0 then (db_data, -1)
  else
    let o := shield_funds db_cache db_data account.toNat tsk extskEnc memoStr now
    match o.result with
    | .ok r => (o.ledger, r)
    | .error _ => (o.ledger, -1)

/-! ## C-boundary release helpers -/

/-- The host-visible allocation state: the identities of the live allocations
handed out by the library. -/
structure HeapState where
  allocs : List Nat
  deriving DecidableEq, Repr

/-- Outcome of `zcashlc_vec_string_free`: either the heap after the release, or
an assertion failure (no vector is reconstructed and nothing is freed). -/
inductive FreeOutcome where
  | ok (h : HeapState)
  | assertFailed
  deriving DecidableEq, Repr

/-- `zcashlc_string_free` (lib.rs:849): a null pointer is a no-op; otherwise
the string allocation is reclaimed. -/
def zcashlc_string_free (h : HeapState) (s : Option Nat) : HeapState :=
  match s with
  | none => h
  | some p => { allocs := h.allocs.erase p }

/-- `zcashlc_vec_string_free` (lib.rs:860): a null pointer is a no-op; for a
non-null pointer the call asserts `len <= capacity` before reconstructing the
vector, and only then reclaims the allocation. -/
def zcashlc_vec_string_free (h : HeapState) (v : Option Nat) (len capacity : Nat) :
    FreeOutcome :=
  match v with
  | none => .ok h
  | some p =>
    if len ≤ capacity then .ok { allocs := h.allocs.erase p }
    else .assertFailed

/-! ## Spec-level chain continuity

Declarative counterparts of the validator walk, used to state the
chain-validation claim: `ChainContinuous` says every cached block extends the
running (height, hash) state; `ChainBreaksAt s bs h` says the blocks are
continuous up to some block whose link into the chain fails with reported
height `h`.  Because continuity of everything before the break is part of the
predicate, the break point (the lowest height at which continuity breaks,
trusting the blocks above it to be self-consistent) is unique. -/

inductive ChainContinuous : Option (Nat × Nat) → List CompactBlock → Prop where
  | nil (s : Option (Nat × Nat)) : ChainContinuous s []
  | consNone (b : CompactBlock) (bs : List CompactBlock) :
      ChainContinuous (some (b.height, b.hash)) bs → ChainContinuous none (b :: bs)
  | consSome (p : Nat × Nat) (b : CompactBlock) (bs : List CompactBlock) :
      linkFails p b = none → ChainContinuous (some (b.height, b.hash)) bs →
      ChainContinuous (some p) (b :: bs)

inductive ChainBreaksAt : Option (Nat × Nat) → List CompactBlock → Nat → Prop where
  | here (p : Nat × Nat) (b : CompactBlock) (bs : List CompactBlock) (h : Nat) :
      linkFails p b = some h → ChainBreaksAt (some p) (b :: bs) h
  | consNone (b : CompactBlock) (bs : List CompactBlock) (h : Nat) :
      ChainBreaksAt (some (b.height, b.hash)) bs h → ChainBreaksAt none (b :: bs) h
  | consSome (p : Nat × Nat) (b : CompactBlock) (bs : List CompactBlock) (h : Nat) :
      linkFails p b = none → ChainBreaksAt (some (b.height, b.hash)) bs h →
      ChainBreaksAt (some p) (b :: bs) h

/-- A continuous chain makes the validator walk succeed. -/
theorem validateWalk_eq_none_of_continuous {s : Option (Nat × Nat)}
    {bs : List CompactBlock} (h : ChainContinuous s bs) : validateWalk s bs = none := by
  induction h with
  | nil s => cases s <;> rfl
  | consNone b bs _ ih => simpa [validateWalk] using ih
  | consSome p b bs hlink _ ih => simp [validateWalk, hlink, ih]

/-- A chain that breaks at reported height `h` makes the validator walk return
exactly `h`. -/
theorem validateWalk_eq_some_of_breaksAt {s : Option (Nat × Nat)}
    {bs : List CompactBlock} {h : Nat} (hb : ChainBreaksAt s bs h) :
    validateWalk s bs = some h := by
  induction hb with
  | here p b bs h hlink => simp [validateWalk, hlink]
  | consNone b bs h _ ih => simpa [validateWalk] using ih
  | consSome p b bs h hlink _ ih => simp [validateWalk, hlink, ih]

/-! ## Concrete fixtures used by witnesses and counterexamples -/

/-- A well-formed transparent secret key input (decodes to key 42, whose
transparent address payload is 85). -/
def wTsk : Enc := { hrp := "secp256k1-sk", payload := 42 }

/-- A well-formed extended spending key input for the test network. -/
def wEsk : Enc := { hrp := "secret-extended-key-test", payload := 9 }

/-- A fresh ledger with no scanned blocks. -/
def ledgerEmpty : LedgerState :=
  { corrupt := false, blocks := [], txs := [], notes := [], sentNotes := [] }

/-- A ledger with one scanned block at height 100 (so target height 101 and
anchor height 100). -/
def wLed : LedgerState :=
  { corrupt := false, blocks := [(100, 500)], txs := [], notes := [], sentNotes := [] }

/-- A cache holding one 20000-zatoshi UTXO for the transparent address of key
42, confirmed at height 100. -/
def wCache : CacheState :=
  { corrupt := false, blocks := [],
    utxos := [{ txid := 1, index := 0, script := 85, value := 20000, height := 100,
                address := { hrp := "t", payload := 85 } }] }

/-- A ledger whose highest scanned block is height 104 with hash 900. -/
def wLed104 : LedgerState :=
  { corrupt := false, blocks := [(104, 900)], txs := [], notes := [], sentNotes := [] }

/-- A cache whose block at height 105 declares previous-hash 777, not the
ledger's stored hash 900 for height 104. -/
def wCache105 : CacheState :=
  { corrupt := false,
    blocks := [{ height := 105, hash := 1000, prevHash := 777 }], utxos := [] }

/-- A ledger holding one note (nullifier 11) that is already marked spent. -/
def wNoteLed : LedgerState :=
  { corrupt := false, blocks := [], txs := [],
    notes := [{ account := 0, nf := 11, value := 5, height := 10, spent := some 0 }],
    sentNotes := [] }

/-- A transaction whose single shielded spend consumes the note with
nullifier 11. -/
def wSpendTx : Tx :=
  { transparentInputs := [], shieldedSpends := [11], shieldedOutputs := [], branch := 0 }

/-- A heap with one live allocation. -/
def wHeap : HeapState := { allocs := [5] }

/-- The confirmed UTXO set a shield-funds call selects: the rows for the
transparent address of secret key `sk`, confirmed at or below the height the
call hands to the query. -/
def shieldUtxos (cache : CacheState) (queryH : Nat) (sk : Nat) : List Utxo :=
  get_confirmed_utxos_for_address NETWORK cache queryH
    (derive_transparent_address_from_secret_key sk)

/-- The summed value `V` of the confirmed UTXOs a shield-funds call selects. -/
def shieldValue (cache : CacheState) (queryH : Nat) (sk : Nat) : Int :=
  ((shieldUtxos cache queryH sk).map (fun u => u.value)).sum

/-! ## Claim theorems -/

/-- Claim C9: for every seed and account index, the encoded shielded payment
address derived directly from the spending key equals the encoded shielded
payment address derived from the extended full viewing key obtained from that
same spending key. -/
theorem derive_address_seed_viewing_key_agree (seed : List Nat) (account_index : Nat) :
    zcashlc_derive_shielded_address_from_viewing_key
      (encode_extended_full_viewing_key NETWORK.hrpSaplingExtendedFullViewingKey
        (extendedFullViewingKeyOfSk (spending_key seed NETWORK.coinType account_index)))
      = some (derive_shielded_address_from_seed NETWORK seed account_index) := by
  simp [zcashlc_derive_shielded_address_from_viewing_key,
    decode_extended_full_viewing_key, encode_extended_full_viewing_key,
    derive_shielded_address_from_seed, defaultAddressSk, encode_payment_address]

/-- Claim C10: passing a null pointer to `zcashlc_string_free` or
`zcashlc_vec_string_free` is a safe no-op, and a non-null
`zcashlc_vec_string_free` call with `len > capacity` fails the assertion
instead of reconstructing an invalid vector (nothing is freed). -/
theorem free_null_noop_and_len_assert (h : HeapState) (p len capacity : Nat)
    (hlc : capacity < len) :
    zcashlc_string_free h none = h ∧
    zcashlc_vec_string_free h none len capacity = .ok h ∧
    zcashlc_vec_string_free h (some p) len capacity = .assertFailed := by
  refine ⟨rfl, rfl, ?_⟩
  simp [zcashlc_vec_string_free, Nat.not_le.mpr hlc]

/-- Witness for C10 at a concrete heap: one allocation, `len = 3`,
`capacity = 2`. -/
theorem free_null_noop_and_len_assert_w :
    2 < 3 ∧
    (zcashlc_string_free wHeap none = wHeap ∧
     zcashlc_vec_string_free wHeap none 3 2 = .ok wHeap ∧
     zcashlc_vec_string_free wHeap (some 5) 3 2 = .assertFailed) :=
  ⟨by decide, free_null_noop_and_len_assert wHeap 5 3 2 (by decide)⟩

/-- Claim C8: `zcashlc_validate_combined_chain` mutates neither store; both
stores after the call equal their states before the call, for every outcome. -/
theorem validate_combined_chain_readonly (cache : CacheState) (led : LedgerState) :
    (zcashlc_validate_combined_chain_call cache led).2.1 = cache ∧
    (zcashlc_validate_combined_chain_call cache led).2.2 = led :=
  ⟨rfl, rfl⟩

/-- Claim C5 (refuted, code bug): `zcashlc_branch_id_for_height (-1)` does not
reject the negative height — it wraps it to `4294967295` via `height as u32`
and returns that height's branch id (the Canopy id reinterpreted as `i32`, not
the `-1` failure sentinel); `zcashlc_init_blocks_table` with height `-1` on a
fresh ledger likewise wraps, mutates the store with a checkpoint at height
`4294967295` and returns success.  `zcashlc_rewind_to_height`, by contrast,
does reject `-1` with the `0` sentinel and no mutation, as the spec demands of
all of them. -/
theorem negative_height_wrapped_not_rejected :
    zcashlc_branch_id_for_height (-1) = i32ofU32 canopyBranchId ∧
    zcashlc_branch_id_for_height (-1) ≠ -1 ∧
    (zcashlc_init_blocks_table ledgerEmpty (-1) 77 0 0).2 = 1 ∧
    (zcashlc_init_blocks_table ledgerEmpty (-1) 77 0 0).1.blocks = [(4294967295, 77)] ∧
    zcashlc_rewind_to_height ledgerEmpty (-1) = (ledgerEmpty, 0) := by
  decide

/-- Claim C7: rewinding to a target height at or above the ledger's last
scanned height succeeds (returns `1`) and leaves the ledger unchanged. -/
theorem rewind_at_or_above_watermark_noop (led : LedgerState) (height : Int) (mx : Nat)
    (hc : led.corrupt = false) (hmx : lastScannedHeight led = some mx)
    (hge : (mx : Int) ≤ height) :
    zcashlc_rewind_to_height led height = (led, 1) := by
  unfold zcashlc_rewind_to_height
  rw [hc]
  have h0 : ¬ height < 0 := by omega
  simp only [Bool.false_eq_true, if_false, h0]
  unfold rewind_to_height
  rw [hmx]
  have hle : mx ≤ height.toNat := by omega
  simp [hle]

/-- Witness for C7: rewinding the height-100 ledger to height 150. -/
theorem rewind_at_or_above_watermark_noop_w :
    wLed.corrupt = false ∧ lastScannedHeight wLed = some 100 ∧ ((100 : Nat) : Int) ≤ 150 ∧
    zcashlc_rewind_to_height wLed 150 = (wLed, 1) :=
  ⟨by decide, by decide, by decide,
   rewind_at_or_above_watermark_noop wLed 150 100 (by decide) (by decide) (by decide)⟩

/-- Claim C6: with no anchor obtainable (no blocks scanned yet), the
verified-balance query returns the `-1` failure sentinel (not a zero balance)
and `shield_funds` fails with the no-anchor error before touching the ledger;
the exported shield-funds call returns the `-1` sentinel. -/
theorem no_anchor_fails_not_silent (led : LedgerState) (cache : CacheState)
    (accountI : Int) (account : Nat) (tsk extskEnc : Enc) (memoStr : String) (now : Nat)
    (hc : led.corrupt = false) (hb : led.blocks = []) (ha : 0 ≤ accountI) :
    zcashlc_get_verified_balance led accountI = -1 ∧
    (shield_funds cache led account tsk extskEnc memoStr now).result = .error .noAnchor ∧
    (shield_funds cache led account tsk extskEnc memoStr now).ledger = led ∧
    (zcashlc_shield_funds cache led accountI tsk extskEnc memoStr now).2 = -1 := by
  have hext : block_height_extrema led = none := by
    simp [block_height_extrema, hb]
  have hta : get_target_and_anchor_heights led = none := by
    simp [get_target_and_anchor_heights, hext]
  have hneg : ¬ accountI < 0 := by omega
  refine ⟨?_, ?_, ?_, ?_⟩
  · simp [zcashlc_get_verified_balance, hc, hneg, hta]
  · simp [shield_funds, hc, hta]
  · simp [shield_funds, hc, hta]
  · cases hcc : cache.corrupt <;>
      simp [zcashlc_shield_funds, hc, hcc, hneg, shield_funds, hta]

/-- Witness for C6 at the empty ledger and a concrete cache. -/
theorem no_anchor_fails_not_silent_w :
    ledgerEmpty.corrupt = false ∧ ledgerEmpty.blocks = [] ∧ (0 : Int) ≤ 3 ∧
    (zcashlc_get_verified_balance ledgerEmpty 3 = -1 ∧
     (shield_funds wCache ledgerEmpty 3 wTsk wEsk "" 7).result = .error .noAnchor ∧
     (shield_funds wCache ledgerEmpty 3 wTsk wEsk "" 7).ledger = ledgerEmpty ∧
     (zcashlc_shield_funds wCache ledgerEmpty 3 wTsk wEsk "" 7).2 = -1) :=
  ⟨by decide, by decide, by decide,
   no_anchor_fails_not_silent ledgerEmpty wCache 3 3 wTsk wEsk "" 7
     (by decide) (by decide) (by decide)⟩

/-- Claim C3: `zcashlc_validate_combined_chain` returns `-1` when the combined
chain is fully continuous up to the cache tip; when continuity breaks (all
blocks below the break extend the ledger state, the breaking block does not),
it returns the reported break height; and it returns `0` on an I/O or
malformed-store failure unrelated to continuity. -/
theorem validate_combined_chain_result (cache : CacheState) (led : LedgerState) (h : Nat) :
    (cache.corrupt = false → led.corrupt = false →
      ChainContinuous (get_max_height_hash led)
        (relevantBlocks cache (get_max_height_hash led)) →
      zcashlc_validate_combined_chain cache led = -1) ∧
    (cache.corrupt = false → led.corrupt = false →
      ChainBreaksAt (get_max_height_hash led)
        (relevantBlocks cache (get_max_height_hash led)) h →
      h < 2147483648 →
      zcashlc_validate_combined_chain cache led = (h : Int)) ∧
    ((cache.corrupt = true ∨ led.corrupt = true) →
      zcashlc_validate_combined_chain cache led = 0) := by
  refine ⟨?_, ?_, ?_⟩
  · intro hcc hlc hcont
    simp [zcashlc_validate_combined_chain, hcc, hlc,
      validateWalk_eq_none_of_continuous hcont]
  · intro hcc hlc hbr hlt
    have hmod : h % 4294967296 = h := Nat.mod_eq_of_lt (by omega)
    simp [zcashlc_validate_combined_chain, hcc, hlc,
      validateWalk_eq_some_of_breaksAt hbr, i32ofU32, hmod, hlt]
  · intro hor
    rcases hor with hcc | hlc
    · simp [zcashlc_validate_combined_chain, hcc]
    · simp [zcashlc_validate_combined_chain, hlc]

/-- Witness for C3, the spec's own example: the ledger stores hash 900 for
height 104, the cached block at height 105 declares previous-hash 777, and the
call reports invalid at exactly height 105. -/
theorem validate_combined_chain_result_w :
    zcashlc_validate_combined_chain wCache105 wLed104 = (105 : Int) :=
  (validate_combined_chain_result wCache105 wLed104 105).2.1 rfl rfl
    (ChainBreaksAt.here (104, 900) { height := 105, hash := 1000, prevHash := 777 } [] 105
      (by decide))
    (by decide)

/-- Marking spends only touches the notes column: transactions, sent notes,
blocks and the corruption flag come through unchanged. -/
theorem markAllSpent_frame (txRef : Int) (nfs : List Nat) :
    ∀ led led2 : LedgerState, markAllSpent txRef led nfs = .ok led2 →
      led2.txs = led.txs ∧ led2.sentNotes = led.sentNotes ∧
      led2.blocks = led.blocks ∧ led2.corrupt = led.corrupt := by
  induction nfs with
  | nil =>
    intro led led2 h
    cases h
    exact ⟨rfl, rfl, rfl, rfl⟩
  | cons nf nfs ih =>
    intro led led2 h
    unfold markAllSpent at h
    cases hs : mark_spent led txRef nf with
    | error e => rw [hs] at h; cases h
    | ok led1 =>
      rw [hs] at h
      have hfields : led1.txs = led.txs ∧ led1.sentNotes = led.sentNotes ∧
          led1.blocks = led.blocks ∧ led1.corrupt = led.corrupt := by
        unfold mark_spent at hs
        split at hs
        · cases hs
        · cases hs
          exact ⟨rfl, rfl, rfl, rfl⟩
      obtain ⟨h1, h2, h3, h4⟩ := ih led1 led2 h
      exact ⟨h1.trans hfields.1, h2.trans hfields.2.1,
             h3.trans hfields.2.2.1, h4.trans hfields.2.2.2⟩

/-- Claim C2: the final database-update step of `shield_funds` — persisting the
raw transaction with a timestamp, marking each consumed shielded input spent,
and inserting the sent-note record — is one atomic unit: any failure leaves the
ledger exactly as it was before the call, and success returns the row
reference of the persisted transaction (with exactly one new transaction row
and one new sent-note row appended). -/
theorem commit_atomic (led : LedgerState) (tx : Tx) (now : Nat) (oi : Nat)
    (account : Nat) (toAddr : RecipientAddress) (value : Int) (memo : Option String)
    (e : DbError) (ref : Int) :
    ((commitShield led tx now oi account toAddr value memo).2 = .error e →
      (commitShield led tx now oi account toAddr value memo).1 = led) ∧
    ((commitShield led tx now oi account toAddr value memo).2 = .ok ref →
      ref = (led.txs.length : Int) ∧
      (commitShield led tx now oi account toAddr value memo).1.txs =
        led.txs ++ [{ tx := tx, created := some now, minedHeight := none }] ∧
      (commitShield led tx now oi account toAddr value memo).1.sentNotes =
        led.sentNotes ++ [{ txRef := ref, outputIndex := oi, account := account,
                            toAddr := toAddr, value := value, memo := memo }]) := by
  unfold commitShield transactionally
  cases hm : markAllSpent (put_tx_data led tx (some now)).2
      (put_tx_data led tx (some now)).1 tx.shieldedSpends with
  | error e2 =>
    simp only [hm]
    constructor
    · intro _; trivial
    · intro hcontr; cases hcontr
  | ok up2 =>
    simp only [hm]
    constructor
    · intro hcontr; cases hcontr
    · intro hok
      have href : ref = (led.txs.length : Int) := by
        simpa [put_tx_data] using (Except.ok.injEq _ _).mp hok.symm
      have hframe := markAllSpent_frame (put_tx_data led tx (some now)).2 tx.shieldedSpends
        (put_tx_data led tx (some now)).1 up2 hm
      refine ⟨href, ?_, ?_⟩
      · simpa [insert_sent_note, put_tx_data] using hframe.1
      · simp only [insert_sent_note, put_tx_data] at hframe ⊢
        rw [hframe.2.1, href]

/-- Witness for C2, the rollback direction: committing a transaction that
spends the already-spent note of `wNoteLed` fails, and the ledger after the
call is exactly `wNoteLed`. -/
theorem commit_atomic_w :
    (commitShield wNoteLed wSpendTx 1 0 0 (RecipientAddress.shielded 3) 5 none).1 =
      wNoteLed :=
  (commit_atomic wNoteLed wSpendTx 1 0 0 (RecipientAddress.shielded 3) 5 none
    .doubleSpend 0).1 (by decide)

/-- The extrema fold of `block_height_extrema` keeps its minimum at or below
its maximum. -/
theorem extremaFold_le (bs : List (Nat × Nat)) :
    ∀ acc : Option (Nat × Nat), (∀ a b, acc = some (a, b) → a ≤ b) →
      ∀ a b,
        bs.foldl
          (fun acc b =>
            match acc with
            | none => some (b.1, b.1)
            | some (mn, mx) => some (min mn b.1, max mx b.1))
          acc = some (a, b) →
        a ≤ b := by
  induction bs with
  | nil =>
    intro acc hacc a b h
    exact hacc a b h
  | cons x xs ih =>
    intro acc hacc a b h
    simp only [List.foldl_cons] at h
    refine ih _ ?_ a b h
    intro a2 b2 heq
    cases acc with
    | none =>
      simp only [Option.some.injEq, Prod.mk.injEq] at heq
      omega
    | some p =>
      obtain ⟨mn, mx⟩ := p
      simp only [Option.some.injEq, Prod.mk.injEq] at heq
      have := hacc mn mx rfl
      omega

/-- `block_height_extrema` returns a minimum at or below the maximum. -/
theorem block_height_extrema_min_le_max (led : LedgerState) (mn mx : Nat)
    (h : block_height_extrema led = some (mn, mx)) : mn ≤ mx := by
  unfold block_height_extrema at h
  exact extremaFold_le led.blocks none (by intro a b hh; cases hh) mn mx h

/-- The anchor height produced by `get_target_and_anchor_heights` is always
strictly below the target height. -/
theorem anchor_lt_target (led : LedgerState) (targetH anchorH : Nat)
    (h : get_target_and_anchor_heights led = some (targetH, anchorH)) :
    anchorH < targetH := by
  unfold get_target_and_anchor_heights at h
  cases he : block_height_extrema led with
  | none => rw [he] at h; cases h
  | some p =>
    obtain ⟨mn, mx⟩ := p
    rw [he] at h
    simp only [Option.some.injEq, Prod.mk.injEq] at h
    have hle := block_height_extrema_min_le_max led mn mx he
    omega

/-- Every height `shield_funds` hands to `get_confirmed_utxos_for_address` is
the target-height component of `get_target_and_anchor_heights`, and every
height it hands to `BranchId::for_height` is the anchor-height component. -/
theorem shield_funds_heights (cache : CacheState) (led : LedgerState) (account : Nat)
    (tsk extskEnc : Enc) (memoStr : String) (now : Nat) (targetH anchorH : Nat)
    (hta : get_target_and_anchor_heights led = some (targetH, anchorH)) :
    ((shield_funds cache led account tsk extskEnc memoStr now).utxoQueryHeight = none ∨
      (shield_funds cache led account tsk extskEnc memoStr now).utxoQueryHeight =
        some targetH) ∧
    ((shield_funds cache led account tsk extskEnc memoStr now).branchIdHeight = none ∨
      (shield_funds cache led account tsk extskEnc memoStr now).branchIdHeight =
        some anchorH) := by
  have hdec : ∀ k : Nat,
      RecipientAddress.decode NETWORK (derive_transparent_address_from_secret_key k) =
        some (RecipientAddress.transparent (transparentPubkeyHash k)) := fun k => rfl
  unfold shield_funds
  rw [hta]
  simp only [hdec]
  repeat' split
  all_goals simp

/-- Counterexample to claim C4: on a ledger whose only scanned block is at
height 100, a complete `shield_funds` run derives the signing branch id at
height 100 (the anchor component) but selects the confirmed UTXOs at height
101 (the target component) — the two heights differ. -/
theorem branch_id_height_ne_utxo_anchor_cex :
    (shield_funds wCache wLed 0 wTsk wEsk "" 7).branchIdHeight = some 100 ∧
    (shield_funds wCache wLed 0 wTsk wEsk "" 7).utxoQueryHeight = some 101 ∧
    (shield_funds wCache wLed 0 wTsk wEsk "" 7).branchIdHeight ≠
      (shield_funds wCache wLed 0 wTsk wEsk "" 7).utxoQueryHeight := by
  decide

/-- Claim C4 as amended: in every shield-funds call that reaches both the UTXO
query and branch-id derivation, the branch id is derived at the anchor-height
component of `get_target_and_anchor_heights` (the same height handed to
`Builder::new`), while the confirmed-UTXO selection receives the target-height
component, which strictly exceeds it; the two heights are never equal. -/
theorem branch_id_height_is_anchor_not_target (cache : CacheState) (led : LedgerState)
    (account : Nat) (tsk extskEnc : Enc) (memoStr : String) (now : Nat)
    (targetH anchorH q b : Nat)
    (hta : get_target_and_anchor_heights led = some (targetH, anchorH))
    (hq : (shield_funds cache led account tsk extskEnc memoStr now).utxoQueryHeight =
      some q)
    (hb : (shield_funds cache led account tsk extskEnc memoStr now).branchIdHeight =
      some b) :
    q = targetH ∧ b = anchorH ∧ b < q := by
  obtain ⟨hq2, hb2⟩ :=
    shield_funds_heights cache led account tsk extskEnc memoStr now targetH anchorH hta
  have hqt : q = targetH := by
    rcases hq2 with h | h
    · rw [h] at hq; cases hq
    · have := h.symm.trans hq
      injection this with hh
      exact hh.symm
  have hba : b = anchorH := by
    rcases hb2 with h | h
    · rw [h] at hb; cases hb
    · have := h.symm.trans hb
      injection this with hh
      exact hh.symm
  have hlt := anchor_lt_target led targetH anchorH hta
  exact ⟨hqt, hba, by omega⟩

/-- Witness for the amended C4 at the concrete run of the counterexample. -/
theorem branch_id_height_is_anchor_not_target_w :
    get_target_and_anchor_heights wLed = some (101, 100) ∧
    (101 = 101 ∧ 100 = 100 ∧ 100 < 101) :=
  ⟨by decide,
   branch_id_height_is_anchor_not_target wCache wLed 0 wTsk wEsk "" 7 101 100 101 100
     (by decide) (by decide) (by decide)⟩

/-- Claim C1: with V the sum of the confirmed transparent UTXOs found for the
derived address and F the fixed default fee — if V does not exceed F, the call
returns the insufficient-funds error before any signing work (`built = false`)
and before any ledger mutation; and a successful call adds exactly one
transaction record whose transaction carries exactly one sapling output of
value V minus F and zero shielded spends, marking zero shielded notes spent
(the notes table is untouched), with V necessarily exceeding F. -/
theorem shield_funds_output_value_and_frame
    (cache : CacheState) (led : LedgerState) (account : Nat) (tsk extskEnc : Enc)
    (memoStr : String) (now : Nat) (sk extsk targetH anchorH : Nat) (memoV : String)
    (ref : Int)
    (hlc : led.corrupt = false) (hcc : cache.corrupt = false)
    (hta : get_target_and_anchor_heights led = some (targetH, anchorH))
    (hsk : secretKeyFromStr tsk = some sk)
    (hesk : decode_extended_spending_key NETWORK.hrpSaplingExtendedSpendingKey extskEnc =
      some extsk)
    (hmemo : memoFromStr memoStr = some memoV)
    (hpos : ∀ u ∈ shieldUtxos cache targetH sk, 0 ≤ u.value) :
    (shieldValue cache targetH sk ≤ DEFAULT_FEE →
      (shield_funds cache led account tsk extskEnc memoStr now).result =
          .error .insufficientFunds ∧
      (shield_funds cache led account tsk extskEnc memoStr now).built = false ∧
      (shield_funds cache led account tsk extskEnc memoStr now).ledger = led) ∧
    ((shield_funds cache led account tsk extskEnc memoStr now).result = .ok ref →
      DEFAULT_FEE < shieldValue cache targetH sk ∧
      (shield_funds cache led account tsk extskEnc memoStr now).ledger.txs.take
          led.txs.length = led.txs ∧
      ((shield_funds cache led account tsk extskEnc memoStr now).ledger.txs.drop
          led.txs.length).map
          (fun r => (r.tx.shieldedSpends.length,
                     r.tx.shieldedOutputs.map (fun s => s.value)))
        = [(0, [shieldValue cache targetH sk - DEFAULT_FEE])] ∧
      (shield_funds cache led account tsk extskEnc memoStr now).ledger.notes =
        led.notes) := by
  have hdec : ∀ k : Nat,
      RecipientAddress.decode NETWORK (derive_transparent_address_from_secret_key k) =
        some (RecipientAddress.transparent (transparentPubkeyHash k)) := fun k => rfl
  have hV0 : 0 ≤ shieldValue cache targetH sk := by
    unfold shieldValue
    apply List.sum_nonneg
    intro x hx
    obtain ⟨u, hu, rfl⟩ := List.mem_map.mp hx
    exact hpos u hu
  unfold shieldValue shieldUtxos at hV0 ⊢
  unfold shield_funds
  simp only [hlc, hta, hsk, hdec, hesk, hmemo, hcc, Bool.false_eq_true, if_false]
  generalize hSum :
    (List.map (fun u => u.value)
      (get_confirmed_utxos_for_address NETWORK cache targetH
        (derive_transparent_address_from_secret_key sk))).sum = S at hV0 ⊢
  constructor
  · intro hVF
    have hb1 : -MAX_MONEY ≤ S ∧ S ≤ MAX_MONEY := by
      unfold MAX_MONEY
      unfold DEFAULT_FEE at hVF
      omega
    have hAm1 : amountFromI64 S = some S := by
      unfold amountFromI64
      exact if_pos hb1
    have hb2 : -MAX_MONEY ≤ DEFAULT_FEE + S ∧ DEFAULT_FEE + S ≤ MAX_MONEY := by
      unfold MAX_MONEY DEFAULT_FEE
      unfold DEFAULT_FEE at hVF
      omega
    have hAm2 : amountFromI64 (DEFAULT_FEE + S) = some (DEFAULT_FEE + S) := by
      unfold amountFromI64
      exact if_pos hb2
    simp only [hAm1, hAm2, hVF, if_true]
    exact ⟨trivial, trivial, trivial⟩
  · intro href
    cases hA : amountFromI64 S with
    | none => rw [hA] at href; simp at href
    | some tA =>
      have htA : S = tA := by
        unfold amountFromI64 at hA
        split at hA
        · exact (Option.some.injEq _ _).mp hA
        · cases hA
      subst htA
      simp only [hA] at href ⊢
      cases hA2 : amountFromI64 (DEFAULT_FEE + S) with
      | none => rw [hA2] at href; simp at href
      | some tV =>
        simp only [hA2] at href ⊢
        by_cases hVF : S ≤ DEFAULT_FEE
        · rw [if_pos hVF] at href
          simp at href
        · rw [if_neg hVF] at href ⊢
          cases hBC : builderAddChecks sk
              (get_confirmed_utxos_for_address NETWORK cache targetH
                (derive_transparent_address_from_secret_key sk))
              (S - DEFAULT_FEE) with
          | some e => rw [hBC] at href; simp at href
          | none =>
            simp only [hBC] at href ⊢
            have hch0 : S - (S - DEFAULT_FEE) - DEFAULT_FEE = 0 := by ring
            have hbb : builderBuild
                (get_confirmed_utxos_for_address NETWORK cache targetH
                  (derive_transparent_address_from_secret_key sk))
                (ovkOf (extendedFullViewingKeyOfSk extsk)) (defaultAddressSk extsk)
                (S - DEFAULT_FEE) memoV (branchIdForHeight NETWORK anchorH) =
              .ok
                { transparentInputs :=
                    (get_confirmed_utxos_for_address NETWORK cache targetH
                      (derive_transparent_address_from_secret_key sk)).map
                      (fun u => (u.txid, u.index, u.value))
                  shieldedSpends := []
                  shieldedOutputs :=
                    [{ ovk := some (ovkOf (extendedFullViewingKeyOfSk extsk)),
                       toAddr := defaultAddressSk extsk, value := S - DEFAULT_FEE,
                       memo := some memoV }]
                  branch := branchIdForHeight NETWORK anchorH } := by
              unfold builderBuild
              rw [hSum]
              simp only [hch0]
              norm_num
            simp only [hbb] at href ⊢
            have hmi : metadataOutputIndex 1 0 = some 0 := rfl
            simp only [hmi] at href ⊢
            simp only [commitShield, transactionally, put_tx_data, markAllSpent,
              insert_sent_note] at href ⊢
            refine ⟨by unfold DEFAULT_FEE at hVF ⊢; omega, ?_, ?_, ?_⟩
            · exact List.take_left _ _
            · rw [List.drop_left]
              simp
            · trivial


/-- Witness for C1: the 20000-zatoshi UTXO of `wCache` shielded over fee
10000 through the height-100 ledger `wLed` yields one transaction with one
output of value 10000 and an untouched notes table. -/
theorem shield_funds_output_value_and_frame_w :
    (wLed.corrupt = false ∧ wCache.corrupt = false ∧
      get_target_and_anchor_heights wLed = some (101, 100) ∧
      secretKeyFromStr wTsk = some 42 ∧
      decode_extended_spending_key NETWORK.hrpSaplingExtendedSpendingKey wEsk = some 9 ∧
      memoFromStr "" = some "" ∧
      ∀ u ∈ shieldUtxos wCache 101 42, 0 ≤ u.value) ∧
    (DEFAULT_FEE < shieldValue wCache 101 42 ∧
      (shield_funds wCache wLed 0 wTsk wEsk "" 7).ledger.txs.take wLed.txs.length =
        wLed.txs ∧
      ((shield_funds wCache wLed 0 wTsk wEsk "" 7).ledger.txs.drop wLed.txs.length).map
          (fun r => (r.tx.shieldedSpends.length,
                     r.tx.shieldedOutputs.map (fun s => s.value)))
        = [(0, [shieldValue wCache 101 42 - DEFAULT_FEE])] ∧
      (shield_funds wCache wLed 0 wTsk wEsk "" 7).ledger.notes = wLed.notes) :=
  ⟨by decide,
   (shield_funds_output_value_and_frame wCache wLed 0 wTsk wEsk "" 7 42 9 101 100 "" 0
      (by decide) (by decide) (by decide) (by decide) (by decide) (by decide)
      (by decide)).2 (by decide)⟩
